import Mathlib

/-
  Verification development for the ListeningScriptGenerator repository
  (script_generator.py, audio_generator.py, app.py).

  Shallow embedding conventions:
  - A pydub AudioSegment is modelled as a list of abstract per-millisecond
    sample values, so that List.length is the pydub duration in milliseconds.
    Decibel gain is modelled as a per-sample shift; amplitude semantics are
    abstracted, duration semantics are exact.
  - External services (Azure speech synthesis, the json parser of the model
    response, the pydub tone generators driven by random) are oracles passed
    as function parameters; everything the repository itself computes is
    translated directly from the Python source.
  - Raised Python exceptions become constructors of explicit error types;
    the temp-directory file system is threaded as a list of existing paths.
-/

set_option linter.unusedVariables false

namespace ListeningScript

/-- pydub AudioSegment: one abstract sample value per millisecond of audio. -/
abbrev AudioSegment := List Int

/-- AudioSegment.silent(duration=d). -/
def silent (duration : Nat) : AudioSegment := List.replicate duration 0

/-- pydub overlay: the overlaid segment is truncated to the base segment, so
the result always has the duration of the base segment. -/
def overlay (base other : AudioSegment) : AudioSegment :=
  (List.zipWith (· + ·) base other) ++ base.drop other.length

/-- pydub gain (seg + db / seg - db), modelled as a per-sample shift;
duration-preserving like the real operation. -/
def applyGainDb (a : AudioSegment) (db : Int) : AudioSegment :=
  a.map (fun s => s + db)

/-- The whitespace characters stripped by the Python str.strip() default. -/
def isPySpace (c : Char) : Bool :=
  c == ' ' || c == '\t' || c == '\n' || c == '\r' || c == '\x0b' || c == '\x0c'

/-- Python str.strip(): drop leading and trailing whitespace. -/
def pyStrip (s : String) : String :=
  ⟨((s.data.dropWhile isPySpace).reverse.dropWhile isPySpace).reverse⟩

/-- Python str.lower() (ASCII case folding, enough for file extensions). -/
def pyLower (s : String) : String := ⟨s.data.map Char.toLower⟩

/-- Python str.endswith(suffix). -/
def pyEndsWith (s suffix : String) : Bool := suffix.data.isSuffixOf s.data

/-- The decimal digit character for d (mirrors the characters of Python str). -/
def digitChr (d : Nat) : Char := Char.ofNat (48 + d)

/-- Fuel-driven most-significant-first decimal digit list of n. -/
def natCharsCore (fuel n : Nat) : List Char :=
  match fuel with
  | 0 => []
  | fuel + 1 =>
    if n = 0 then []
    else natCharsCore fuel (n / 10) ++ [digitChr (n % 10)]

/-- The decimal digits of n, mirroring Python str(n) for natural n. -/
def natChars (n : Nat) : List Char :=
  if n = 0 then ['0'] else natCharsCore (n + 1) n

/-- Python str(n) for a natural number n. -/
def natStr (n : Nat) : String := ⟨natChars n⟩

/-- Truthiness of an optional Python string (None and the empty string are falsy). -/
def truthyOpt : Option String → Bool
  | some s => !(s == "")
  | none => false

/-- Python `a or b` on optional strings: the first operand when truthy, else the second. -/
def pyOr (a b : Option String) : Option String :=
  match a with
  | some s => if s == "" then b else some s
  | none => b

/-- One conversation line as consumed by generate_conversation_audio:
a dict read through line.get, so both keys are optional. -/
structure PyLine where
  speaker : Option String
  text : Option String
deriving DecidableEq

/-- line.get('text', ''). -/
def textOf (line : PyLine) : String := line.text.getD ""

/-- line.get('speaker', f'Speaker{i}'). -/
def speakerOf (i : Nat) (line : PyLine) : String :=
  line.speaker.getD ("Speaker" ++ natStr i)

/-- The f-string key f'{speaker}_{i}' used for per-line files. -/
def mkKey (speaker : String) (i : Nat) : String := speaker ++ "_" ++ natStr i

/-- The azure SpeechConfig as far as the repository uses it: the voice name
set in AudioGenerator.__init__. -/
structure SpeechConfig where
  voice : String
deriving DecidableEq

/-- The AudioGenerator state built by __init__. -/
structure AudioGenerator where
  temp_dir : String
  azure_speech_key : Option String
  azure_region : Option String
  speech_config : Option SpeechConfig
deriving DecidableEq

/-- AudioGenerator.__init__: the speech config exists exactly when both the
key and the region are truthy, and it always carries the fixed voice
en-US-AriaNeural (audio_generator.py lines 16-24). -/
def AudioGenerator.init (temp_dir : String) (key region : Option String) : AudioGenerator :=
  { temp_dir := temp_dir
    azure_speech_key := key
    azure_region := region
    speech_config :=
      if truthyOpt key && truthyOpt region then some ⟨"en-US-AriaNeural"⟩ else none }

/-- Outcome of one azure speak_text_async call (external oracle). -/
inductive SynthResult where
  | completed (clip : AudioSegment)
  | canceled (reason : String)
  | failed (reason : String)
deriving DecidableEq

/-- The exceptions generate_conversation_audio can raise (each is wrapped in
the generic outer `Failed to generate audio` exception by the source). -/
inductive AudioError where
  | notConfigured
  | synthesisCanceled (reason : String)
  | synthesisFailed (reason : String)
  | emptyConversation
deriving DecidableEq

/-- A synthesis request actually sent to the speech service. -/
structure SynthCall where
  index : Nat
  text : String
  voice : String
deriving DecidableEq

/-- Python dict assignment on an insertion-ordered association list. -/
def dictInsert (m : List (String × String)) (k v : String) : List (String × String) :=
  if m.any (fun p => p.1 == k) then m.map (fun p => if p.1 == k then (k, v) else p)
  else m ++ [(k, v)]

/-- File creation in the temp directory (paths of currently existing files). -/
def pathInsert (files : List String) (p : String) : List String :=
  if files.contains p then files else files ++ [p]

/-- os.remove. -/
def pathRemove (files : List String) (p : String) : List String := files.erase p

/-- Mutable state of the per-line loop of generate_conversation_audio. -/
structure LoopState where
  individual : List (String × String)
  segments : List AudioSegment
  files : List String
  calls : List SynthCall
deriving DecidableEq

/-- The per-line loop of generate_conversation_audio (audio_generator.py
lines 48-94): skip whitespace-only text, synthesize through azure with the
single configured voice, insert 1000 ms of silence before every clip except
the first, export the per-line file keyed f'{speaker}_{i}', and abort on a
synthesis cancellation or failure. -/
def runLines (cfg : SpeechConfig) (synth : Nat → String → SynthResult)
    (tempDir : String) :
    List PyLine → Nat → LoopState → LoopState × Option AudioError
  | [], _, st => (st, none)
  | line :: rest, i, st =>
    let speaker := speakerOf i line
    let text := textOf line
    if pyStrip text == "" then
      runLines cfg synth tempDir rest (i + 1) st
    else
      let tempWav := tempDir ++ "/" ++ mkKey speaker i ++ "_temp.wav"
      let st1 := { st with calls := st.calls ++ [⟨i, text, cfg.voice⟩] }
      match synth i text with
      | .completed clip =>
        let segs :=
          if st1.segments.isEmpty then st1.segments ++ [clip]
          else st1.segments ++ [silent 1000, clip]
        let key := mkKey speaker i
        let indPath := tempDir ++ "/" ++ key ++ ".wav"
        let st2 : LoopState :=
          { individual := dictInsert st1.individual key indPath
            segments := segs
            files := pathRemove (pathInsert (pathInsert st1.files tempWav) indPath) tempWav
            calls := st1.calls }
        runLines cfg synth tempDir rest (i + 1) st2
      | .canceled r => (st1, some (.synthesisCanceled r))
      | .failed r => (st1, some (.synthesisFailed r))

/-- A Streamlit uploaded background file: its name and the outcome of pydub
decoding of its bytes (none models a decode exception). -/
structure UploadedFile where
  name : String
  decoded : Option AudioSegment
deriving DecidableEq

/-- _load_uploaded_background (audio_generator.py lines 136-178): write the
upload into the temp dir, decode by extension, loop the clip when shorter
than the target, trim to the target, and return None on any exception
(unsupported extension, decode failure, or the division by zero hit by a
zero-length decoded clip). On the exception path the temp copy is not
removed, because os.remove is skipped by the raised exception. -/
def load_uploaded_background (tempDir : String) (f : UploadedFile)
    (target_duration_ms : Nat) (files : List String) :
    Option AudioSegment × List String :=
  let tempBg := tempDir ++ "/uploaded_bg_" ++ f.name
  let files1 := pathInsert files tempBg
  let decoded : Option AudioSegment :=
    if pyEndsWith (pyLower f.name) ".mp3" then f.decoded
    else if pyEndsWith (pyLower f.name) ".wav" then f.decoded
    else none
  match decoded with
  | none => (none, files1)
  | some bg =>
    if bg.length < target_duration_ms then
      if bg.length = 0 then (none, files1)
      else
        let loops_needed := target_duration_ms / bg.length + 1
        let looped := (List.replicate loops_needed bg).flatten
        (some (looped.take target_duration_ms), pathRemove files1 tempBg)
    else (some (bg.take target_duration_ms), pathRemove files1 tempBg)

/-- _generate_background_audio (audio_generator.py lines 180-261). The try
body layers pydub sine generators driven by the random module; those library
calls are the external oracle genBg (some clip = the try body succeeded,
none = it raised). The except branch returning silence of the requested
duration is translated from lines 258-261. -/
def generate_background_audio (genBg : Nat → String → Option AudioSegment)
    (duration_ms : Nat) (background_type : String) : AudioSegment :=
  match genBg duration_ms background_type with
  | some a => a
  | none => silent duration_ms

/-- The fixed background attenuation applied by generate_conversation_audio
(audio_generator.py lines 113 and 121: `background_audio - 20`). -/
def background_gain_db : Int := -20

/-- The successful return value of generate_conversation_audio, together
with the combined clip that was exported to the combined path. -/
structure GenOk where
  combined_path : String
  combined_audio : AudioSegment
  individual : List (String × String)
deriving DecidableEq

/-- Full outcome of one generate_conversation_audio call: the returned value
or raised error, the files existing in the temp dir afterwards, and the
synthesis requests that were sent. -/
structure GenOut where
  result : Except AudioError GenOk
  files : List String
  calls : List SynthCall

/-- The background block of generate_conversation_audio (audio_generator.py
lines 104-122): when requested, overlay either the processed uploaded file
(skipped when loading returned None or an empty clip, both falsy in Python)
or the generated ambience, each attenuated by the fixed -20 dB. -/
def apply_background (genBg : Nat → String → Option AudioSegment)
    (tempDir : String) (add_background : Bool) (background_type : Option String)
    (uploaded_background : Option UploadedFile)
    (combined : AudioSegment) (files : List String) : AudioSegment × List String :=
  if add_background then
    match uploaded_background with
    | some f =>
      let (bg, files1) := load_uploaded_background tempDir f combined.length files
      match bg with
      | some b =>
        if b.length = 0 then (combined, files1)
        else (overlay combined (applyGainDb b background_gain_db), files1)
      | none => (combined, files1)
    | none =>
      match background_type with
      | some t =>
        if !(t == "") && !(t == "none") then
          (overlay combined
            (applyGainDb (generate_background_audio genBg combined.length t)
              background_gain_db), files)
        else (combined, files)
      | none => (combined, files)
  else (combined, files)

/-- generate_conversation_audio (audio_generator.py lines 26-134). -/
def generate_conversation_audio (g : AudioGenerator)
    (synth : Nat → String → SynthResult)
    (genBg : Nat → String → Option AudioSegment)
    (conversation : List PyLine) (add_background : Bool)
    (background_type : Option String) (uploaded_background : Option UploadedFile) :
    GenOut :=
  match g.speech_config with
  | none => ⟨.error .notConfigured, [], []⟩
  | some cfg =>
    let (st, err) := runLines cfg synth g.temp_dir conversation 0 ⟨[], [], [], []⟩
    match err with
    | some e => ⟨.error e, st.files, st.calls⟩
    | none =>
      if st.segments.isEmpty then ⟨.error .emptyConversation, st.files, st.calls⟩
      else
        let combined := st.segments.foldl (· ++ ·) []
        let withBg := apply_background genBg g.temp_dir add_background
          background_type uploaded_background combined st.files
        let combinedPath := g.temp_dir ++ "/combined_conversation.wav"
        ⟨.ok ⟨combinedPath, withBg.1, st.individual⟩,
          pathInsert withBg.2 combinedPath, st.calls⟩

/-- A decoded Python/JSON value, as handled by script_generator.py. -/
inductive PyVal where
  | none
  | bool (b : Bool)
  | int (n : Int)
  | str (s : String)
  | list (xs : List PyVal)
  | dict (kvs : List (String × PyVal))

/-- Python `k in d` on a dict. -/
def hasKey (kvs : List (String × PyVal)) (k : String) : Bool :=
  kvs.any (fun p => p.1 == k)

/-- Python d[k] on a dict (the repository only subscripts after an `in`
check, so a missing key never raises here; it yields None in the model). -/
def dictGet (kvs : List (String × PyVal)) (k : String) : PyVal :=
  match kvs.find? (fun p => p.1 == k) with
  | some p => p.2
  | Option.none => PyVal.none

/-- The per-entry check of the validate_script loop (script_generator.py
lines 107-108): the entry is a dict holding both the speaker and the text
key. -/
def entryOk (line : PyVal) : Bool :=
  match line with
  | .dict kvs => hasKey kvs "speaker" && hasKey kvs "text"
  | _ => false

/-- validate_script (script_generator.py lines 89-111): all three required
fields present, conversation is a list, and every entry passes entryOk.
A total function, so it never raises. -/
def validate_script (script_data : List (String × PyVal)) : Bool :=
  if !(hasKey script_data "title" && hasKey script_data "situation" &&
        hasKey script_data "conversation") then
    false
  else
    match dictGet script_data "conversation" with
    | .list xs => xs.all entryOk
    | _ => false

/-- The ScriptGenerator state built by __init__ (script_generator.py lines
6-12): the key is `api_key or os.environ.get("OPENAI_API_KEY")`, and the
OpenAI client exists exactly when that key is truthy. -/
structure ScriptGenerator where
  api_key : Option String
  clientConfigured : Bool

def ScriptGenerator.init (api_key env_key : Option String) : ScriptGenerator :=
  let k := pyOr api_key env_key
  { api_key := k, clientConfigured := truthyOpt k }

/-- The exceptions generate_script can raise (each is wrapped in an outer
generic exception by the source; all but configuration correspond to the
MalformedResponseError of the specification). -/
inductive ScriptError where
  | configuration
  | emptyResponse
  | jsonDecode
  | invalidStructure
  | invalidConversation
deriving DecidableEq

/-- Whether a ScriptError is a MalformedResponseError in the sense of the
specification (everything except the missing-credential error). -/
def ScriptError.isMalformed : ScriptError → Bool
  | .configuration => false
  | _ => true

/-- generate_script (script_generator.py lines 19-87). The chat-completion
endpoint and json.loads are external: `content` is the message content the
endpoint returned (None when absent) and `parse` is the json parser, which
yields the key/value pairs of the JSON object on success and none on a parse
failure (the endpoint is called with response_format json_object, so a
successful parse is an object). The Bool in the result records whether the
network request was actually sent. -/
def generate_script (clientConfigured : Bool) (content : Option String)
    (parse : String → Option (List (String × PyVal))) :
    Except ScriptError (List (String × PyVal)) × Bool :=
  if !clientConfigured then (.error .configuration, false)
  else
    match content with
    | Option.none => (.error .emptyResponse, true)
    | some c =>
      if c == "" then (.error .emptyResponse, true)
      else
        match parse c with
        | Option.none => (.error .jsonDecode, true)
        | some result =>
          if !(hasKey result "title" && hasKey result "situation" &&
                hasKey result "conversation") then
            (.error .invalidStructure, true)
          else
            match dictGet result "conversation" with
            | .list xs =>
              if xs.length = 0 then (.error .invalidConversation, true)
              else (.ok result, true)
            | _ => (.error .invalidConversation, true)

/-- A well-formed model response whose conversation is a non-empty list
containing one entry that has neither a speaker nor a text key. -/
def c9_response_doc : List (String × PyVal) :=
  [("title", .str "T"), ("situation", .str "S"), ("conversation", .list [.dict []])]

/-- The keyword-bindable parameter names of the generate_conversation_audio
signature (audio_generator.py line 26). -/
def generate_conversation_audio_param_names : List String :=
  ["conversation", "add_background", "background_type", "uploaded_background"]

/-- The keyword argument names used by the audio-generation call of the
Presentation Layer (app.py lines 282-288). -/
def app_audio_call_keyword_names : List String :=
  ["add_background", "background_type", "uploaded_background", "background_volume"]

/-- Python call binding: the first keyword argument that matches no declared
parameter; when it is some k the call raises TypeError naming k before the
function body runs. -/
def firstUnexpectedKeyword (params kwargs : List String) : Option String :=
  kwargs.find? (fun k => !params.contains k)

/-- The lines the per-line loop does not skip, paired with their positions
in the input conversation, starting the position count at i. -/
def nonEmptyFrom (i : Nat) : List PyLine → List (Nat × PyLine)
  | [] => []
  | line :: rest =>
    if pyStrip (textOf line) == "" then nonEmptyFrom (i + 1) rest
    else (i, line) :: nonEmptyFrom (i + 1) rest

/-- The non-skipped lines of a conversation with their positions. -/
def nonEmptyLines (conversation : List PyLine) : List (Nat × PyLine) :=
  nonEmptyFrom 0 conversation

/-- Total duration of a list of segments. -/
def sumLen (segs : List AudioSegment) : Nat := (segs.map List.length).sum

/-- Duration bookkeeping for the growing segment list: the combined duration
plus one trailing 1000 ms gap, and 0 for the empty list. Appending a clip
(with its leading gap when one is inserted) always adds clip length + 1000. -/
def fVal (segs : List AudioSegment) : Nat :=
  if segs = [] then 0 else sumLen segs + 1000

/-- The per-line dictionary key of a kept line. -/
def lineKey (p : Nat × PyLine) : String := mkKey (speakerOf p.1 p.2) p.1

/-- The per-line exported file path of a kept line. -/
def lineFile (tempDir : String) (p : Nat × PyLine) : String :=
  tempDir ++ "/" ++ lineKey p ++ ".wav"

/-- The synthesis request issued for a kept line. -/
def lineCall (cfg : SpeechConfig) (p : Nat × PyLine) : SynthCall :=
  ⟨p.1, textOf p.2, cfg.voice⟩

/-- Clip duration a synthesis oracle assigns to a kept line. -/
def lineClipLen (clips : Nat → String → AudioSegment) (p : Nat × PyLine) : Nat :=
  (clips p.1 (textOf p.2)).length

/-- Value of a most-significant-first decimal digit character list. -/
def valOf : List Char → Nat
  | [] => 0
  | c :: cs => (c.toNat - 48) * 10 ^ cs.length + valOf cs

theorem digitChr_toNat (d : Nat) (h : d ≤ 9) : (digitChr d).toNat = 48 + d := by
  interval_cases d <;> rfl

theorem valOf_append_digit (cs : List Char) (c : Char) :
    valOf (cs ++ [c]) = valOf cs * 10 + (c.toNat - 48) := by
  induction cs with
  | nil => simp [valOf]
  | cons x xs ih =>
    simp only [List.cons_append, valOf, List.append_eq, ih, List.length_append,
      List.length_singleton, pow_succ]
    ring

theorem valOf_natCharsCore (fuel : Nat) :
    ∀ n : Nat, n ≤ fuel → valOf (natCharsCore fuel n) = n := by
  induction fuel with
  | zero =>
    intro n hn
    interval_cases n
    simp [natCharsCore, valOf]
  | succ fuel ih =>
    intro n hn
    by_cases h0 : n = 0
    · simp [natCharsCore, h0, valOf]
    · have hdiv : n / 10 < n := Nat.div_lt_self (Nat.pos_of_ne_zero h0) (by omega)
      rw [natCharsCore, if_neg h0, valOf_append_digit,
        ih (n / 10) (by omega), digitChr_toNat (n % 10) (by omega)]
      omega

theorem valOf_natChars (n : Nat) : valOf (natChars n) = n := by
  by_cases h : n = 0
  · subst h; decide
  · rw [natChars, if_neg h]
    exact valOf_natCharsCore (n + 1) n (by omega)

theorem natChars_injective {m n : Nat} (h : natChars m = natChars n) : m = n := by
  have hm := valOf_natChars m
  rw [h, valOf_natChars] at hm
  exact hm.symm

theorem natCharsCore_digits (fuel : Nat) :
    ∀ n : Nat, ∀ c ∈ natCharsCore fuel n, ∃ d, d ≤ 9 ∧ c = digitChr d := by
  induction fuel with
  | zero => intro n c hc; simp [natCharsCore] at hc
  | succ fuel ih =>
    intro n c hc
    rw [natCharsCore] at hc
    by_cases h0 : n = 0
    · rw [if_pos h0] at hc; simp at hc
    · rw [if_neg h0] at hc
      rcases List.mem_append.mp hc with hc | hc
      · exact ih _ c hc
      · exact ⟨n % 10, by omega, by simpa using hc⟩

theorem underscore_not_mem_natChars (n : Nat) : '_' ∉ natChars n := by
  intro h
  rw [natChars] at h
  by_cases h0 : n = 0
  · rw [if_pos h0] at h; simp at h
  · rw [if_neg h0] at h
    obtain ⟨d, hd, he⟩ := natCharsCore_digits (n + 1) n '_' h
    have h95 : ('_').toNat = 95 := rfl
    have := congrArg Char.toNat he
    rw [h95, digitChr_toNat d hd] at this
    omega

theorem append_underscore_inj (a : List Char) :
    ∀ (b r1 r2 : List Char), '_' ∉ r1 → '_' ∉ r2 →
      a ++ '_' :: r1 = b ++ '_' :: r2 → r1 = r2 := by
  induction a with
  | nil =>
    intro b r1 r2 h1 h2 h
    cases b with
    | nil => simpa using h
    | cons c b' =>
      simp only [List.nil_append, List.cons_append, List.cons.injEq] at h
      exact absurd (h.2 ▸ List.mem_append_right b' (List.mem_cons_self _ _)) h1
  | cons c a' ih =>
    intro b r1 r2 h1 h2 h
    cases b with
    | nil =>
      simp only [List.nil_append, List.cons_append, List.cons.injEq] at h
      exact absurd (h.2 ▸ List.mem_append_right a' (List.mem_cons_self _ _)) h2
    | cons d b' =>
      simp only [List.cons_append, List.cons.injEq] at h
      exact ih b' r1 r2 h1 h2 h.2

theorem sumLen_append (a b : List AudioSegment) :
    sumLen (a ++ b) = sumLen a + sumLen b := by
  simp [sumLen]

theorem overlay_length (base other : AudioSegment) :
    (overlay base other).length = base.length := by
  simp only [overlay, List.length_append, List.length_zipWith, List.length_drop]
  omega

theorem applyGainDb_length (a : AudioSegment) (db : Int) :
    (applyGainDb a db).length = a.length := by
  simp [applyGainDb]

theorem nonEmptyFrom_ge (ls : List PyLine) :
    ∀ (i : Nat), ∀ p ∈ nonEmptyFrom i ls, i ≤ p.1 := by
  induction ls with
  | nil => intro i p hp; simp [nonEmptyFrom] at hp
  | cons line rest ih =>
    intro i p hp
    rw [nonEmptyFrom] at hp
    by_cases h : (pyStrip (textOf line) == "") = true
    · rw [if_pos h] at hp
      exact le_trans (by omega) (ih (i + 1) p hp)
    · rw [if_neg h] at hp
      rcases List.mem_cons.mp hp with hp | hp
      · subst hp; exact le_refl i
      · exact le_trans (by omega) (ih (i + 1) p hp)

theorem nonEmptyFrom_fst_nodup (ls : List PyLine) :
    ∀ (i : Nat), ((nonEmptyFrom i ls).map Prod.fst).Nodup := by
  induction ls with
  | nil => intro i; simp [nonEmptyFrom]
  | cons line rest ih =>
    intro i
    rw [nonEmptyFrom]
    by_cases h : (pyStrip (textOf line) == "") = true
    · rw [if_pos h]; exact ih (i + 1)
    · rw [if_neg h]
      simp only [List.map_cons, List.nodup_cons]
      refine ⟨?_, ih (i + 1)⟩
      intro hmem
      obtain ⟨p, hp, hfst⟩ := List.mem_map.mp hmem
      have := nonEmptyFrom_ge rest (i + 1) p hp
      omega

theorem mkKey_index_inj {s1 s2 : String} {i j : Nat} (h : mkKey s1 i = mkKey s2 j) :
    i = j := by
  have hdata : s1.data ++ '_' :: natChars i = s2.data ++ '_' :: natChars j := by
    have hc := congrArg String.data h
    simpa [mkKey, natStr, String.data_append] using hc
  exact natChars_injective
    (append_underscore_inj _ _ _ _ (underscore_not_mem_natChars i)
      (underscore_not_mem_natChars j) hdata)

theorem runLines_all_empty (cfg : SpeechConfig) (synth : Nat → String → SynthResult)
    (td : String) (ls : List PyLine) :
    ∀ (i : Nat) (st : LoopState), (∀ line ∈ ls, pyStrip (textOf line) = "") →
      runLines cfg synth td ls i st = (st, none) := by
  induction ls with
  | nil => intro i st h; rfl
  | cons line rest ih =>
    intro i st h
    rw [runLines]
    have hline : (pyStrip (textOf line) == "") = true := by
      simp [h line (List.mem_cons_self _ _)]
    rw [if_pos hline]
    exact ih (i + 1) st (fun l hl => h l (List.mem_cons_of_mem _ hl))

theorem runLines_spec (cfg : SpeechConfig) (clips : Nat → String → AudioSegment)
    (td : String) (ls : List PyLine) :
    ∀ (i : Nat) (st : LoopState),
      (∀ k ∈ st.individual.map Prod.fst, ∃ s j, j < i ∧ k = mkKey s j) →
      ∃ st',
        runLines cfg (fun a b => .completed (clips a b)) td ls i st = (st', none) ∧
        st'.individual = st.individual ++
          (nonEmptyFrom i ls).map (fun p => (lineKey p, lineFile td p)) ∧
        st'.calls = st.calls ++ (nonEmptyFrom i ls).map (lineCall cfg) ∧
        fVal st'.segments = fVal st.segments +
          ((nonEmptyFrom i ls).map (fun p => lineClipLen clips p + 1000)).sum ∧
        (st'.segments = [] ↔ (st.segments = [] ∧ nonEmptyFrom i ls = [])) := by
  induction ls with
  | nil =>
    intro i st hkeys
    exact ⟨st, rfl, by simp [nonEmptyFrom], by simp [nonEmptyFrom],
      by simp [nonEmptyFrom], by simp [nonEmptyFrom]⟩
  | cons line rest ih =>
    intro i st hkeys
    by_cases hskip : (pyStrip (textOf line) == "") = true
    · have hstep :
          runLines cfg (fun a b => .completed (clips a b)) td (line :: rest) i st =
          runLines cfg (fun a b => .completed (clips a b)) td rest (i + 1) st := by
        rw [runLines, if_pos hskip]
      rw [hstep, nonEmptyFrom, if_pos hskip]
      exact ih (i + 1) st
        (fun k hk => by obtain ⟨s, j, hj, he⟩ := hkeys k hk; exact ⟨s, j, by omega, he⟩)
    · set key := mkKey (speakerOf i line) i with hkeydef
      set clip := clips i (textOf line) with hclipdef
      set indPath := td ++ "/" ++ key ++ ".wav" with hpathdef
      have hfresh : (st.individual.any (fun p => p.1 == key)) = false := by
        rw [List.any_eq_false]
        intro p hp
        simp only [beq_iff_eq]
        intro hpk
        obtain ⟨s, j, hj, he⟩ := hkeys p.1 (List.mem_map_of_mem Prod.fst hp)
        have : j = i := mkKey_index_inj (by rw [← he, hpk])
        omega
      set st2 : LoopState :=
        { individual := st.individual ++ [(key, indPath)]
          segments :=
            if st.segments.isEmpty then st.segments ++ [clip]
            else st.segments ++ [silent 1000, clip]
          files := pathRemove
            (pathInsert (pathInsert st.files (td ++ "/" ++ key ++ "_temp.wav")) indPath)
            (td ++ "/" ++ key ++ "_temp.wav")
          calls := st.calls ++ [⟨i, textOf line, cfg.voice⟩] } with hst2
      have hstep :
          runLines cfg (fun a b => .completed (clips a b)) td (line :: rest) i st =
          runLines cfg (fun a b => .completed (clips a b)) td rest (i + 1) st2 := by
        rw [runLines, if_neg hskip]
        simp only [dictInsert, hfresh, Bool.false_eq_true, ite_false]
      have hkeys2 : ∀ k ∈ st2.individual.map Prod.fst, ∃ s j, j < i + 1 ∧ k = mkKey s j := by
        intro k hk
        rw [hst2] at hk
        simp only [List.map_append, List.mem_append, List.map_cons, List.map_nil,
          List.mem_singleton] at hk
        rcases hk with hk | hk
        · obtain ⟨s, j, hj, he⟩ := hkeys k hk
          exact ⟨s, j, by omega, he⟩
        · exact ⟨speakerOf i line, i, by omega, hk⟩
      obtain ⟨st', hrun, hind, hcalls, hfv, hiff⟩ := ih (i + 1) st2 hkeys2
      rw [hstep, nonEmptyFrom, if_neg hskip]
      refine ⟨st', hrun, ?_, ?_, ?_, ?_⟩
      · rw [hind, hst2]
        simp only [List.map_cons, List.append_assoc, List.singleton_append]
        rfl
      · rw [hcalls, hst2]
        simp only [List.map_cons, List.append_assoc, List.singleton_append]
        rfl
      · have hstep2 : fVal st2.segments =
            fVal st.segments + (lineClipLen clips (i, line) + 1000) := by
          rw [hst2]
          by_cases hemp : st.segments = []
          · simp [hemp, fVal, sumLen, lineClipLen, ← hclipdef]
          · have hne : st.segments.isEmpty = false := by
              simpa [List.isEmpty_iff] using hemp
            simp only [hne, Bool.false_eq_true, ite_false, fVal, sumLen_append]
            rw [if_neg (by simp : ¬ st.segments ++ [silent 1000, clip] = []),
              if_neg hemp]
            simp only [sumLen, List.map_cons, List.map_nil, List.sum_cons,
              List.sum_nil, silent, List.length_replicate, lineClipLen, ← hclipdef]
            omega
        rw [hfv, hstep2]
        simp only [List.map_cons, List.sum_cons]
        omega
      · have hne2 : ¬ st2.segments = [] := by
          rw [hst2]
          by_cases hemp : st.segments.isEmpty = true
          · simp [hemp]
          · simp only [hemp, Bool.false_eq_true, ite_false]
            simp
        constructor
        · intro h
          exact absurd ((hiff.mp h).1) hne2
        · intro h
          exact absurd h.2 (by simp)

theorem foldl_append_length (segs : List AudioSegment) :
    ∀ acc : AudioSegment, (segs.foldl (· ++ ·) acc).length = acc.length + sumLen segs := by
  induction segs with
  | nil => intro acc; simp [sumLen]
  | cons s ss ih =>
    intro acc
    simp only [List.foldl_cons, ih, List.length_append]
    simp [sumLen]
    omega

theorem sum_map_add_const {α : Type} (l : List α) (f : α → Nat) (c : Nat) :
    (l.map (fun p => f p + c)).sum = (l.map f).sum + c * l.length := by
  induction l with
  | nil => simp
  | cons a l ih =>
    simp only [List.map_cons, List.sum_cons, ih, List.length_cons]
    ring

theorem apply_background_length (genBg : Nat → String → Option AudioSegment)
    (tempDir : String) (add_background : Bool) (background_type : Option String)
    (uploaded_background : Option UploadedFile)
    (combined : AudioSegment) (files : List String) :
    (apply_background genBg tempDir add_background background_type
      uploaded_background combined files).1.length = combined.length := by
  rw [apply_background.eq_def]
  cases add_background with
  | false => simp
  | true =>
    simp only [ite_true]
    cases uploaded_background with
    | some f =>
      rcases hload : load_uploaded_background tempDir f combined.length files with ⟨bg, files1⟩
      cases bg with
      | some b =>
        simp only [hload]
        by_cases hb : b.length = 0
        · simp [hb]
        · simp [hb, overlay_length]
      | none => simp [hload]
    | none =>
      cases background_type with
      | some t =>
        by_cases ht : (!(t == "") && !(t == "none")) = true
        · simp [ht, overlay_length]
        · simp [ht]
      | none => simp

theorem generate_run (g : AudioGenerator) (cfg : SpeechConfig)
    (hcfg : g.speech_config = some cfg)
    (synth : Nat → String → SynthResult) (genBg : Nat → String → Option AudioSegment)
    (conversation : List PyLine) (add_background : Bool)
    (background_type : Option String) (uploaded_background : Option UploadedFile)
    (st' : LoopState)
    (hrun : runLines cfg synth g.temp_dir conversation 0 ⟨[], [], [], []⟩ = (st', none))
    (hne : st'.segments.isEmpty = false) :
    generate_conversation_audio g synth genBg conversation add_background
        background_type uploaded_background =
      ⟨.ok ⟨g.temp_dir ++ "/combined_conversation.wav",
          (apply_background genBg g.temp_dir add_background background_type
            uploaded_background (st'.segments.foldl (· ++ ·) []) st'.files).1,
          st'.individual⟩,
        pathInsert (apply_background genBg g.temp_dir add_background background_type
            uploaded_background (st'.segments.foldl (· ++ ·) []) st'.files).2
          (g.temp_dir ++ "/combined_conversation.wav"),
        st'.calls⟩ := by
  unfold generate_conversation_audio
  rw [hcfg]
  simp only [hrun, hne, Bool.false_eq_true, ite_false]

theorem runLines_calls_voice (cfg : SpeechConfig) (synth : Nat → String → SynthResult)
    (td : String) (ls : List PyLine) :
    ∀ (i : Nat) (st : LoopState), (∀ c ∈ st.calls, c.voice = cfg.voice) →
      ∀ c ∈ (runLines cfg synth td ls i st).1.calls, c.voice = cfg.voice := by
  induction ls with
  | nil => intro i st h; exact h
  | cons line rest ih =>
    intro i st h
    rw [runLines]
    by_cases hskip : (pyStrip (textOf line) == "") = true
    · rw [if_pos hskip]
      exact ih (i + 1) st h
    · rw [if_neg hskip]
      have hext : ∀ c ∈ st.calls ++ [(⟨i, textOf line, cfg.voice⟩ : SynthCall)],
          c.voice = cfg.voice := by
        intro c hc
        rcases List.mem_append.mp hc with hc | hc
        · exact h c hc
        · rw [List.mem_singleton.mp hc]
      rcases hs : synth i (textOf line) with clip | r | r
      · simp only [hs]
        exact ih (i + 1) _ hext
      · simp only [hs]
        exact hext
      · simp only [hs]
        exact hext

/-- C1: for every conversation whose non-empty (after stripping) lines all
synthesize successfully, generate_conversation_audio succeeds and the
combined clip duration equals the sum of the per-line clip durations plus
(N - 1) x 1000 ms of inserted silence, with no leading or trailing silence;
the right-hand side does not mention add_background, background_type or the
uploaded background, so the duration is identical with and without a
background overlay. -/
theorem claim_c1_combined_duration
    (g : AudioGenerator) (cfg : SpeechConfig) (hcfg : g.speech_config = some cfg)
    (clips : Nat → String → AudioSegment) (genBg : Nat → String → Option AudioSegment)
    (conversation : List PyLine) (add_background : Bool)
    (background_type : Option String) (uploaded_background : Option UploadedFile)
    (hN : nonEmptyLines conversation ≠ []) :
    ∃ r : GenOk,
      (generate_conversation_audio g (fun a b => .completed (clips a b)) genBg
        conversation add_background background_type uploaded_background).result =
          .ok r ∧
      r.combined_audio.length =
        ((nonEmptyLines conversation).map (lineClipLen clips)).sum +
          ((nonEmptyLines conversation).length - 1) * 1000 := by
  obtain ⟨st', hrun, hind, hcalls, hfv, hiff⟩ :=
    runLines_spec cfg clips g.temp_dir conversation 0 ⟨[], [], [], []⟩ (by simp)
  have hne' : st'.segments ≠ [] := by
    intro h
    exact hN (hiff.mp h).2
  have hne : st'.segments.isEmpty = false := by
    simpa [List.isEmpty_iff] using hne'
  have hgen := generate_run g cfg hcfg (fun a b => .completed (clips a b)) genBg
    conversation add_background background_type uploaded_background st' hrun hne
  refine ⟨_, by rw [hgen], ?_⟩
  have hlen1 := apply_background_length genBg g.temp_dir add_background
    background_type uploaded_background (st'.segments.foldl (· ++ ·) []) st'.files
  have hlen2 : (st'.segments.foldl (· ++ ·) []).length = sumLen st'.segments := by
    rw [foldl_append_length]
    simp
  have hsum : fVal st'.segments =
      ((nonEmptyLines conversation).map (lineClipLen clips)).sum +
        1000 * (nonEmptyLines conversation).length := by
    rw [hfv, sum_map_add_const]
    simp [fVal, nonEmptyLines]
  have hfv2 : fVal st'.segments = sumLen st'.segments + 1000 := by
    rw [fVal, if_neg hne']
  have hNpos : 0 < (nonEmptyLines conversation).length := List.length_pos.mpr hN
  simp only [hlen1, hlen2]
  omega

/-- Concrete instance of C1: a two-line conversation with 3 ms clips yields
a 3 + 3 + 1000 = 1006 ms combined clip. -/
theorem claim_c1_combined_duration_witness :
    (AudioGenerator.init "t" (some "k") (some "r")).speech_config =
        some ⟨"en-US-AriaNeural"⟩ ∧
    nonEmptyLines [⟨some "A", some "Hello"⟩, ⟨some "B", some "Hi"⟩] ≠ [] ∧
    ∃ r : GenOk,
      (generate_conversation_audio (AudioGenerator.init "t" (some "k") (some "r"))
        (fun a b => .completed ((fun _ _ => ([0, 0, 0] : AudioSegment)) a b))
        (fun _ _ => none)
        [⟨some "A", some "Hello"⟩, ⟨some "B", some "Hi"⟩] false none none).result =
          .ok r ∧
      r.combined_audio.length =
        ((nonEmptyLines [⟨some "A", some "Hello"⟩, ⟨some "B", some "Hi"⟩]).map
          (lineClipLen (fun _ _ => ([0, 0, 0] : AudioSegment)))).sum +
          ((nonEmptyLines [⟨some "A", some "Hello"⟩, ⟨some "B", some "Hi"⟩]).length - 1)
            * 1000 :=
  ⟨by decide, by decide,
    claim_c1_combined_duration (AudioGenerator.init "t" (some "k") (some "r"))
      ⟨"en-US-AriaNeural"⟩ (by decide) (fun _ _ => [0, 0, 0]) (fun _ _ => none)
      [⟨some "A", some "Hello"⟩, ⟨some "B", some "Hi"⟩] false none none (by decide)⟩

/-- C2 counterexample: in a concrete two-line conversation the two distinct
speaker labels A and B are both synthesized with the very same voice
identity en-US-AriaNeural, refuting the claim that distinct speaker labels
(while a voice pool is not exhausted) receive different voice identities;
the source has no voice pool at all. -/
theorem claim_c2_counterexample :
    ((generate_conversation_audio (AudioGenerator.init "t" (some "k") (some "r"))
        (fun _ _ => .completed [0]) (fun _ _ => none)
        [⟨some "A", some "Hello"⟩, ⟨some "B", some "Hi"⟩]
        false none none).calls.map SynthCall.voice =
      ["en-US-AriaNeural", "en-US-AriaNeural"]) ∧
    ("A" : String) ≠ "B" := by
  constructor
  · rfl
  · decide

/-- C2 amended: within one generate_conversation_audio call every line is
synthesized with the single fixed voice identity en-US-AriaNeural set in
AudioGenerator.__init__, regardless of its speaker label; lines sharing a
speaker label therefore trivially share a voice, but distinct labels share
it too. -/
theorem claim_c2_fixed_voice (td : String) (key region : Option String)
    (hk : truthyOpt key = true) (hr : truthyOpt region = true)
    (synth : Nat → String → SynthResult) (genBg : Nat → String → Option AudioSegment)
    (conversation : List PyLine) (add_background : Bool)
    (background_type : Option String) (uploaded_background : Option UploadedFile) :
    ((generate_conversation_audio (AudioGenerator.init td key region) synth genBg
        conversation add_background background_type uploaded_background).calls.all
      (fun c => c.voice == "en-US-AriaNeural")) = true := by
  have hcfg : (AudioGenerator.init td key region).speech_config =
      some ⟨"en-US-AriaNeural"⟩ := by
    simp [AudioGenerator.init, hk, hr]
  have htd : (AudioGenerator.init td key region).temp_dir = td := rfl
  have hvoice := runLines_calls_voice ⟨"en-US-AriaNeural"⟩ synth td conversation 0
    ⟨[], [], [], []⟩ (by simp)
  rw [List.all_eq_true]
  intro c hc
  simp only [beq_iff_eq]
  have hcalls : (generate_conversation_audio (AudioGenerator.init td key region)
      synth genBg conversation add_background background_type
      uploaded_background).calls =
      (runLines ⟨"en-US-AriaNeural"⟩ synth td conversation 0 ⟨[], [], [], []⟩).1.calls := by
    unfold generate_conversation_audio
    rw [hcfg, htd]
    rcases hrun : runLines ⟨"en-US-AriaNeural"⟩ synth td conversation 0
      ⟨[], [], [], []⟩ with ⟨st, err⟩
    cases err with
    | some e => simp [hrun]
    | none =>
      by_cases hne : st.segments.isEmpty = true
      · simp [hrun, hne]
      · simp [hrun, hne]
  rw [hcalls] at hc
  exact hvoice c hc

/-- Concrete instance of C2 amended: with truthy credentials a two-line run
reports the fixed voice for every call. -/
theorem claim_c2_fixed_voice_witness :
    truthyOpt (some "k") = true ∧ truthyOpt (some "r") = true ∧
    ((generate_conversation_audio (AudioGenerator.init "t" (some "k") (some "r"))
        (fun _ _ => .completed [0]) (fun _ _ => none)
        [⟨some "A", some "Hello"⟩, ⟨some "B", some "Hi"⟩]
        false none none).calls.all
      (fun c => c.voice == "en-US-AriaNeural")) = true :=
  ⟨by decide, by decide,
    claim_c2_fixed_voice "t" (some "k") (some "r") (by decide) (by decide)
      (fun _ _ => .completed [0]) (fun _ _ => none)
      [⟨some "A", some "Hello"⟩, ⟨some "B", some "Hi"⟩] false none none⟩

/-- C3: with every non-empty line synthesizing successfully, the returned
individual map is exactly one entry per non-empty line, in order, keyed
speaker_index with index the position of the line in the input conversation;
the keys are pairwise distinct and skipped lines contribute nothing. -/
theorem claim_c3_individual_map
    (g : AudioGenerator) (cfg : SpeechConfig) (hcfg : g.speech_config = some cfg)
    (clips : Nat → String → AudioSegment) (genBg : Nat → String → Option AudioSegment)
    (conversation : List PyLine) (add_background : Bool)
    (background_type : Option String) (uploaded_background : Option UploadedFile)
    (hN : nonEmptyLines conversation ≠ []) :
    ∃ r : GenOk,
      (generate_conversation_audio g (fun a b => .completed (clips a b)) genBg
        conversation add_background background_type uploaded_background).result =
          .ok r ∧
      r.individual = (nonEmptyLines conversation).map
        (fun p => (lineKey p, lineFile g.temp_dir p)) ∧
      r.individual.length = (nonEmptyLines conversation).length ∧
      (r.individual.map Prod.fst).Nodup := by
  obtain ⟨st', hrun, hind, hcalls, hfv, hiff⟩ :=
    runLines_spec cfg clips g.temp_dir conversation 0 ⟨[], [], [], []⟩ (by simp)
  have hne' : st'.segments ≠ [] := fun h => hN (hiff.mp h).2
  have hne : st'.segments.isEmpty = false := by
    simpa [List.isEmpty_iff] using hne'
  have hgen := generate_run g cfg hcfg (fun a b => .completed (clips a b)) genBg
    conversation add_background background_type uploaded_background st' hrun hne
  have hindiv : st'.individual = (nonEmptyLines conversation).map
      (fun p => (lineKey p, lineFile g.temp_dir p)) := by
    rw [hind]
    simp [nonEmptyLines]
  have hfstnodup := nonEmptyFrom_fst_nodup conversation 0
  have hinj := List.inj_on_of_nodup_map hfstnodup
  have hkeysnodup : ((nonEmptyLines conversation).map
      (fun p => (lineKey p, lineFile g.temp_dir p))).map Prod.fst
      |>.Nodup := by
    rw [List.map_map]
    have hk : (Prod.fst ∘ fun p => (lineKey p, lineFile g.temp_dir p)) = lineKey := by
      funext p; rfl
    rw [hk]
    refine List.Nodup.map_on ?_ (hfstnodup.of_map)
    intro x hx y hy hxy
    have hfst : x.1 = y.1 := mkKey_index_inj hxy
    exact hinj hx hy hfst
  refine ⟨_, by rw [hgen], ?_, ?_, ?_⟩
  · exact hindiv
  · simp [hindiv]
  · rw [hindiv]
    exact hkeysnodup

/-- Concrete instance of C3: two kept lines, two entries keyed A_0 and B_1. -/
theorem claim_c3_individual_map_witness :
    (AudioGenerator.init "t" (some "k") (some "r")).speech_config =
        some ⟨"en-US-AriaNeural"⟩ ∧
    nonEmptyLines [⟨some "A", some "Hello"⟩, ⟨some "B", some "Hi"⟩] ≠ [] ∧
    ∃ r : GenOk,
      (generate_conversation_audio (AudioGenerator.init "t" (some "k") (some "r"))
        (fun a b => .completed ((fun _ _ => ([0] : AudioSegment)) a b))
        (fun _ _ => none)
        [⟨some "A", some "Hello"⟩, ⟨some "B", some "Hi"⟩] false none none).result =
          .ok r ∧
      r.individual = (nonEmptyLines [⟨some "A", some "Hello"⟩, ⟨some "B", some "Hi"⟩]).map
        (fun p => (lineKey p,
          lineFile (AudioGenerator.init "t" (some "k") (some "r")).temp_dir p)) ∧
      r.individual.length =
        (nonEmptyLines [⟨some "A", some "Hello"⟩, ⟨some "B", some "Hi"⟩]).length ∧
      (r.individual.map Prod.fst).Nodup :=
  ⟨by decide, by decide,
    claim_c3_individual_map (AudioGenerator.init "t" (some "k") (some "r"))
      ⟨"en-US-AriaNeural"⟩ (by decide) (fun _ _ => [0]) (fun _ _ => none)
      [⟨some "A", some "Hello"⟩, ⟨some "B", some "Hi"⟩] false none none (by decide)⟩

/-- C4: a conversation whose every line has empty or whitespace-only text
makes generate_conversation_audio fail with the empty-conversation error
(the ValueError reading No valid audio segments generated), with no file
written and no synthesis call attempted; no partial result is returned. -/
theorem claim_c4_all_empty
    (g : AudioGenerator) (cfg : SpeechConfig) (hcfg : g.speech_config = some cfg)
    (synth : Nat → String → SynthResult) (genBg : Nat → String → Option AudioSegment)
    (conversation : List PyLine) (add_background : Bool)
    (background_type : Option String) (uploaded_background : Option UploadedFile)
    (hempty : ∀ line ∈ conversation, pyStrip (textOf line) = "") :
    generate_conversation_audio g synth genBg conversation add_background
      background_type uploaded_background =
      ⟨.error .emptyConversation, [], []⟩ := by
  have hrun := runLines_all_empty cfg synth g.temp_dir conversation 0
    ⟨[], [], [], []⟩ hempty
  unfold generate_conversation_audio
  rw [hcfg]
  simp [hrun]

/-- Concrete instance of C4: empty and whitespace-only texts, and a missing
text key, all produce the empty-conversation failure with no side effects. -/
theorem claim_c4_all_empty_witness :
    (AudioGenerator.init "t" (some "k") (some "r")).speech_config =
        some ⟨"en-US-AriaNeural"⟩ ∧
    (∀ line ∈ [(⟨some "A", some "  "⟩ : PyLine), ⟨some "B", some ""⟩, ⟨some "C", none⟩],
      pyStrip (textOf line) = "") ∧
    generate_conversation_audio (AudioGenerator.init "t" (some "k") (some "r"))
      (fun _ _ => .completed [0]) (fun _ _ => none)
      [⟨some "A", some "  "⟩, ⟨some "B", some ""⟩, ⟨some "C", none⟩]
      false none none =
      ⟨.error .emptyConversation, [], []⟩ :=
  ⟨by decide, by decide,
    claim_c4_all_empty (AudioGenerator.init "t" (some "k") (some "r"))
      ⟨"en-US-AriaNeural"⟩ (by decide) (fun _ _ => .completed [0]) (fun _ _ => none)
      [⟨some "A", some "  "⟩, ⟨some "B", some ""⟩, ⟨some "C", none⟩]
      false none none (by decide)⟩

/-- C6: a successfully decoded background file with positive duration
strictly shorter than the target is looped end-to-end and trimmed, so the
returned clip has exactly the target duration. -/
theorem claim_c6_background_loop_trim
    (tempDir : String) (f : UploadedFile) (bg : AudioSegment)
    (target : Nat) (files : List String)
    (hext : pyEndsWith (pyLower f.name) ".mp3" = true ∨
      pyEndsWith (pyLower f.name) ".wav" = true)
    (hdec : f.decoded = some bg)
    (hpos : 0 < bg.length) (hshort : bg.length < target) :
    ∃ out : AudioSegment,
      (load_uploaded_background tempDir f target files).1 = some out ∧
      out.length = target := by
  have hdecoded : (if pyEndsWith (pyLower f.name) ".mp3" then f.decoded
      else if pyEndsWith (pyLower f.name) ".wav" then f.decoded else none) = some bg := by
    rcases hext with h | h
    · rw [if_pos h, hdec]
    · by_cases h1 : pyEndsWith (pyLower f.name) ".mp3" = true
      · rw [if_pos h1, hdec]
      · rw [if_neg h1, if_pos h, hdec]
  refine ⟨((List.replicate (target / bg.length + 1) bg).flatten).take target, ?_, ?_⟩
  · unfold load_uploaded_background
    rw [hdecoded]
    dsimp only
    rw [if_pos hshort, if_neg (by omega : ¬ bg.length = 0)]
  · have hflat : ((List.replicate (target / bg.length + 1) bg).flatten).length =
        (target / bg.length + 1) * bg.length := by
      simp [List.length_flatten, List.map_replicate, List.sum_const_nat]
    have h2 : target < (target / bg.length + 1) * bg.length := by
      rw [Nat.succ_mul]
      exact Nat.lt_div_mul_add hpos
    simp [List.length_take, hflat, Nat.min_eq_left (le_of_lt h2)]

/-- Concrete instance of C6: a 2 ms clip looped to a 5 ms target. -/
theorem claim_c6_background_loop_trim_witness :
    (pyEndsWith (pyLower (UploadedFile.mk "bg.wav" (some [1, 2])).name) ".mp3" = true ∨
      pyEndsWith (pyLower (UploadedFile.mk "bg.wav" (some [1, 2])).name) ".wav" = true) ∧
    (UploadedFile.mk "bg.wav" (some [1, 2])).decoded = some [1, 2] ∧
    0 < ([1, 2] : AudioSegment).length ∧ ([1, 2] : AudioSegment).length < 5 ∧
    ∃ out : AudioSegment,
      (load_uploaded_background "t" (UploadedFile.mk "bg.wav" (some [1, 2])) 5 []).1 =
        some out ∧
      out.length = 5 :=
  ⟨Or.inr (by decide), by decide, by decide, by decide,
    claim_c6_background_loop_trim "t" (UploadedFile.mk "bg.wav" (some [1, 2]))
      [1, 2] 5 [] (Or.inr (by decide)) (by decide) (by decide) (by decide)⟩

/-- C7: background failures never fail the assembly. A decode failure makes
_load_uploaded_background return None (no overlay); a generation failure
makes _generate_background_audio return silence of the requested duration;
and generate_conversation_audio still returns a successful result in both
situations. -/
theorem claim_c7_background_failure_tolerated :
    (∀ (td : String) (f : UploadedFile) (target : Nat) (files : List String),
      f.decoded = none →
      (load_uploaded_background td f target files).1 = none) ∧
    (∀ (genBg : Nat → String → Option AudioSegment) (d : Nat) (t : String),
      genBg d t = none → generate_background_audio genBg d t = silent d) ∧
    (∀ (g : AudioGenerator) (cfg : SpeechConfig)
      (clips : Nat → String → AudioSegment) (genBg : Nat → String → Option AudioSegment)
      (conversation : List PyLine) (background_type : Option String) (f : UploadedFile),
      g.speech_config = some cfg → f.decoded = none → nonEmptyLines conversation ≠ [] →
      ∃ r : GenOk,
        (generate_conversation_audio g (fun a b => .completed (clips a b)) genBg
          conversation true background_type (some f)).result = .ok r) ∧
    (∀ (g : AudioGenerator) (cfg : SpeechConfig)
      (clips : Nat → String → AudioSegment) (genBg : Nat → String → Option AudioSegment)
      (conversation : List PyLine) (t : String),
      g.speech_config = some cfg → (∀ d, genBg d t = none) →
      nonEmptyLines conversation ≠ [] →
      ∃ r : GenOk,
        (generate_conversation_audio g (fun a b => .completed (clips a b)) genBg
          conversation true (some t) none).result = .ok r) := by
  refine ⟨?_, ?_, ?_, ?_⟩
  · intro td f target files hdec
    unfold load_uploaded_background
    by_cases h1 : pyEndsWith (pyLower f.name) ".mp3" = true
    · simp [h1, hdec]
    · by_cases h2 : pyEndsWith (pyLower f.name) ".wav" = true
      · simp [h1, h2, hdec]
      · simp [h1, h2]
  · intro genBg d t hfail
    unfold generate_background_audio
    rw [hfail]
  · intro g cfg clips genBg conversation background_type f hcfg hdec hN
    obtain ⟨st', hrun, hind, hcalls, hfv, hiff⟩ :=
      runLines_spec cfg clips g.temp_dir conversation 0 ⟨[], [], [], []⟩ (by simp)
    have hne : st'.segments.isEmpty = false := by
      simpa [List.isEmpty_iff] using (fun h => hN (hiff.mp h).2 : st'.segments ≠ [])
    exact ⟨_, by rw [generate_run g cfg hcfg (fun a b => .completed (clips a b)) genBg
      conversation true background_type (some f) st' hrun hne]⟩
  · intro g cfg clips genBg conversation t hcfg hfail hN
    obtain ⟨st', hrun, hind, hcalls, hfv, hiff⟩ :=
      runLines_spec cfg clips g.temp_dir conversation 0 ⟨[], [], [], []⟩ (by simp)
    have hne : st'.segments.isEmpty = false := by
      simpa [List.isEmpty_iff] using (fun h => hN (hiff.mp h).2 : st'.segments ≠ [])
    exact ⟨_, by rw [generate_run g cfg hcfg (fun a b => .completed (clips a b)) genBg
      conversation true (some t) none st' hrun hne]⟩

/-- Concrete instance of C7: a failing decode and a failing generator leave
the assembly successful, and the fallbacks are None and silence. -/
theorem claim_c7_background_failure_tolerated_witness :
    (load_uploaded_background "t" (UploadedFile.mk "bg.wav" none) 7 []).1 = none ∧
    generate_background_audio (fun _ _ => none) 7 "cafe" = silent 7 ∧
    (∃ r : GenOk,
      (generate_conversation_audio (AudioGenerator.init "t" (some "k") (some "r"))
        (fun a b => .completed ((fun _ _ => ([0] : AudioSegment)) a b)) (fun _ _ => none)
        [⟨some "A", some "Hello"⟩] true none
        (some (UploadedFile.mk "bg.wav" none))).result = .ok r) ∧
    (∃ r : GenOk,
      (generate_conversation_audio (AudioGenerator.init "t" (some "k") (some "r"))
        (fun a b => .completed ((fun _ _ => ([0] : AudioSegment)) a b)) (fun _ _ => none)
        [⟨some "A", some "Hello"⟩] true (some "cafe") none).result = .ok r) :=
  ⟨claim_c7_background_failure_tolerated.1 "t" (UploadedFile.mk "bg.wav" none) 7 []
      (by decide),
    claim_c7_background_failure_tolerated.2.1 (fun _ _ => none) 7 "cafe" rfl,
    claim_c7_background_failure_tolerated.2.2.1
      (AudioGenerator.init "t" (some "k") (some "r")) ⟨"en-US-AriaNeural"⟩
      (fun _ _ => [0]) (fun _ _ => none) [⟨some "A", some "Hello"⟩] none
      (UploadedFile.mk "bg.wav" none) (by decide) (by decide) (by decide),
    claim_c7_background_failure_tolerated.2.2.2
      (AudioGenerator.init "t" (some "k") (some "r")) ⟨"en-US-AriaNeural"⟩
      (fun _ _ => [0]) (fun _ _ => none) [⟨some "A", some "Hello"⟩] "cafe"
      (by decide) (fun _ => rfl) (by decide)⟩

/-- C8: with the credential absent each credentialed operation fails with
the configuration error before any external call: generate_script returns
the missing-key error with the network flag false, and
generate_conversation_audio returns the not-configured error having sent no
synthesis call and written no file. -/
theorem claim_c8_missing_credentials :
    (∀ (api_key env_key content : Option String)
      (parse : String → Option (List (String × PyVal))),
      truthyOpt (pyOr api_key env_key) = false →
      generate_script (ScriptGenerator.init api_key env_key).clientConfigured
        content parse = (.error .configuration, false)) ∧
    (∀ (td : String) (key region : Option String)
      (synth : Nat → String → SynthResult) (genBg : Nat → String → Option AudioSegment)
      (conversation : List PyLine) (add_background : Bool)
      (background_type : Option String) (uploaded_background : Option UploadedFile),
      (truthyOpt key && truthyOpt region) = false →
      generate_conversation_audio (AudioGenerator.init td key region) synth genBg
        conversation add_background background_type uploaded_background =
        ⟨.error .notConfigured, [], []⟩) := by
  constructor
  · intro api_key env_key content parse h
    have hclient : (ScriptGenerator.init api_key env_key).clientConfigured = false := h
    rw [hclient]
    rfl
  · intro td key region synth genBg conversation add_background background_type
      uploaded_background h
    have hcfg : (AudioGenerator.init td key region).speech_config = none := by
      simp [AudioGenerator.init, h]
    unfold generate_conversation_audio
    rw [hcfg]

/-- Concrete instance of C8: an empty OpenAI key and a missing Azure region
each produce the configuration failure with no external interaction. -/
theorem claim_c8_missing_credentials_witness :
    truthyOpt (pyOr (some "") none) = false ∧
    (truthyOpt (some "k") && truthyOpt (none : Option String)) = false ∧
    generate_script (ScriptGenerator.init (some "") none).clientConfigured
      (some "x") (fun _ => none) = (.error .configuration, false) ∧
    generate_conversation_audio (AudioGenerator.init "t" (some "k") none)
      (fun _ _ => .completed [0]) (fun _ _ => none)
      [⟨some "A", some "Hello"⟩] false none none =
      ⟨.error .notConfigured, [], []⟩ :=
  ⟨by decide, by decide,
    claim_c8_missing_credentials.1 (some "") none (some "x") (fun _ => none) (by decide),
    claim_c8_missing_credentials.2 "t" (some "k") none (fun _ _ => .completed [0])
      (fun _ _ => none) [⟨some "A", some "Hello"⟩] false none none (by decide)⟩

theorem entryOk_iff (line : PyVal) :
    entryOk line = true ↔
      ∃ kvs, line = .dict kvs ∧ hasKey kvs "speaker" = true ∧
        hasKey kvs "text" = true := by
  cases line <;> simp [entryOk, Bool.and_eq_true]

/-- C5: for every dictionary input, validate_script returns true exactly
when title, situation and conversation are all present, conversation is a
list, and every entry is a dict holding both speaker and text; it is false
in every other case (so an empty conversation list validates), and as a
total Lean function it never raises. -/
theorem claim_c5_validate_script (d : List (String × PyVal)) :
    validate_script d = true ↔
      (hasKey d "title" = true ∧ hasKey d "situation" = true ∧
        hasKey d "conversation" = true ∧
        ∃ xs, dictGet d "conversation" = .list xs ∧
          ∀ line ∈ xs, ∃ kvs, line = .dict kvs ∧
            hasKey kvs "speaker" = true ∧ hasKey kvs "text" = true) := by
  unfold validate_script
  by_cases hkeys : (hasKey d "title" && hasKey d "situation" &&
      hasKey d "conversation") = true
  · rw [if_neg (by simp [hkeys])]
    rw [Bool.and_eq_true, Bool.and_eq_true] at hkeys
    obtain ⟨⟨h1, h2⟩, h3⟩ := hkeys
    rcases hv : dictGet d "conversation" with _ | b | n | s | xs | kvs
    · simp [h1, h2, h3, hv]
    · simp [h1, h2, h3, hv]
    · simp [h1, h2, h3, hv]
    · simp [h1, h2, h3, hv]
    · simp only [h1, h2, h3, hv, true_and, List.all_eq_true]
      constructor
      · intro h
        exact ⟨xs, rfl, fun line hl => (entryOk_iff line).mp (h line hl)⟩
      · rintro ⟨xs', hxs', h⟩
        obtain rfl : xs = xs' := by
          injection hxs'
        exact fun line hl => (entryOk_iff line).mpr (h line hl)
    · simp [h1, h2, h3, hv]
  · have hconj : (hasKey d "title" && hasKey d "situation" &&
        hasKey d "conversation") = false := by
      exact Bool.eq_false_iff.mpr hkeys
    rw [if_pos (by simp [hconj])]
    simp only [Bool.false_eq_true, false_iff]
    rintro ⟨h1, h2, h3, -⟩
    rw [h1, h2, h3] at hconj
    simp at hconj

/-- C9 counterexample: with a configured client, a response parsing to a
document whose conversation is the non-empty list [{}] — a single entry
having neither a speaker nor a text key — is returned as a success by
generate_script instead of failing with MalformedResponseError as the claim
states; the per-entry record check exists only in validate_script. -/
theorem claim_c9_counterexample :
    (generate_script true (some "X")
        (fun s => if s == "X" then some c9_response_doc else none)).1 =
      .ok c9_response_doc ∧
    dictGet c9_response_doc "conversation" = .list [.dict []] ∧
    entryOk (.dict []) = false :=
  ⟨rfl, rfl, rfl⟩

/-- C9 amended: with a configured client, generate_script either succeeds or
fails with a MalformedResponseError, and it succeeds exactly when the
response content is present and non-empty, parses as a JSON object, holds
all three required keys, and its conversation is a non-empty list; the
entries of that list are not validated. -/
theorem claim_c9_generate_script_validation (content : Option String)
    (parse : String → Option (List (String × PyVal))) :
    ((∃ r, (generate_script true content parse).1 = .ok r) ∨
      (∃ e, (generate_script true content parse).1 = .error e ∧
        e.isMalformed = true)) ∧
    ((∃ r, (generate_script true content parse).1 = .ok r) ↔
      (∃ c result xs, content = some c ∧ (c == "") = false ∧
        parse c = some result ∧
        hasKey result "title" = true ∧ hasKey result "situation" = true ∧
        hasKey result "conversation" = true ∧
        dictGet result "conversation" = .list xs ∧ xs ≠ [])) := by
  rcases content with _ | c
  · have hout : generate_script true Option.none parse = (.error .emptyResponse, true) :=
      rfl
    rw [hout]
    refine ⟨Or.inr ⟨.emptyResponse, rfl, rfl⟩, ?_, ?_⟩
    · rintro ⟨r, hr⟩; simp at hr
    · rintro ⟨c, result, xs, hcc, -⟩; simp at hcc
  · by_cases hc : (c == "") = true
    · have hout : generate_script true (some c) parse = (.error .emptyResponse, true) := by
        unfold generate_script; simp [hc]
      rw [hout]
      refine ⟨Or.inr ⟨.emptyResponse, rfl, rfl⟩, ?_, ?_⟩
      · rintro ⟨r, hr⟩; simp at hr
      · rintro ⟨c', result, xs, hcc, hce, -⟩
        cases hcc
        rw [hc] at hce
        simp at hce
    · have hcf : (c == "") = false := Bool.eq_false_iff.mpr hc
      rcases hp : parse c with _ | result
      · have hout : generate_script true (some c) parse = (.error .jsonDecode, true) := by
          unfold generate_script; simp [hcf, hp]
        rw [hout]
        refine ⟨Or.inr ⟨.jsonDecode, rfl, rfl⟩, ?_, ?_⟩
        · rintro ⟨r, hr⟩; simp at hr
        · rintro ⟨c', result, xs, hcc, hce, hpp, -⟩
          cases hcc
          rw [hp] at hpp
          simp at hpp
      · by_cases hkeys : (hasKey result "title" && hasKey result "situation" &&
            hasKey result "conversation") = true
        · rw [Bool.and_eq_true, Bool.and_eq_true] at hkeys
          obtain ⟨⟨h1, h2⟩, h3⟩ := hkeys
          rcases hv : dictGet result "conversation" with _ | b | n | s | xs | kvs
          on_goal 5 =>
            by_cases hlen : xs.length = 0
            · have hout : generate_script true (some c) parse =
                  (.error .invalidConversation, true) := by
                unfold generate_script; simp [hcf, hp, h1, h2, h3, hv, hlen]
              rw [hout]
              refine ⟨Or.inr ⟨.invalidConversation, rfl, rfl⟩, ?_, ?_⟩
              · rintro ⟨r, hr⟩; simp at hr
              · rintro ⟨c', result', xs', hcc, hce, hpp, h1', h2', h3', hvv, hne⟩
                cases hcc
                rw [hp] at hpp
                cases hpp
                rw [hv] at hvv
                obtain rfl : xs = xs' := by injection hvv
                exact (hne (List.length_eq_zero.mp hlen)).elim
            · have hout : generate_script true (some c) parse = (.ok result, true) := by
                unfold generate_script; simp [hcf, hp, h1, h2, h3, hv, hlen]
              rw [hout]
              refine ⟨Or.inl ⟨result, rfl⟩, ?_, ?_⟩
              · intro hx
                exact ⟨c, result, xs, rfl, hcf, hp, h1, h2, h3, hv,
                  fun h => hlen (by rw [h]; rfl)⟩
              · intro hx
                exact ⟨result, rfl⟩
          all_goals
            have hout : generate_script true (some c) parse =
                (.error .invalidConversation, true) := by
              unfold generate_script; simp [hcf, hp, h1, h2, h3, hv]
          all_goals rw [hout]
          all_goals refine ⟨Or.inr ⟨.invalidConversation, rfl, rfl⟩, ?_, ?_⟩
          all_goals
            first
            | (rintro ⟨c', result', xs', hcc, hce, hpp, h1', h2', h3', hvv, hne⟩
               cases hcc
               rw [hp] at hpp
               cases hpp
               rw [hv] at hvv
               simp at hvv)
            | (rintro ⟨r, hr⟩; simp at hr)
        · have hkf : (hasKey result "title" && hasKey result "situation" &&
              hasKey result "conversation") = false := Bool.eq_false_iff.mpr hkeys
          have hout : generate_script true (some c) parse =
              (.error .invalidStructure, true) := by
            unfold generate_script; simp [hcf, hp, hkf]
          rw [hout]
          refine ⟨Or.inr ⟨.invalidStructure, rfl, rfl⟩, ?_, ?_⟩
          · rintro ⟨r, hr⟩; simp at hr
          · rintro ⟨c', result', xs', hcc, hce, hpp, h1, h2, h3, -⟩
            cases hcc
            rw [hp] at hpp
            cases hpp
            rw [h1, h2, h3] at hkf
            simp at hkf

/-- C10: the Presentation Layer call passes the keyword argument
background_volume, which the generate_conversation_audio signature does not
declare, so Python call binding reports it as the first unexpected keyword
and the call raises TypeError before the function body — and any synthesis —
runs; and the attenuation generate_conversation_audio itself applies to a
background overlay is the fixed background_gain_db = -20 dB constant: with a
generated background the combined clip equals the no-background combined
clip overlaid with the background attenuated by exactly that constant,
independent of any UI volume setting. -/
theorem claim_c10_background_volume_mismatch :
    firstUnexpectedKeyword generate_conversation_audio_param_names
      app_audio_call_keyword_names = some "background_volume" ∧
    background_gain_db = -20 ∧
    (∀ (g : AudioGenerator) (cfg : SpeechConfig)
      (clips : Nat → String → AudioSegment)
      (genBg : Nat → String → Option AudioSegment)
      (conversation : List PyLine) (t : String),
      g.speech_config = some cfg → nonEmptyLines conversation ≠ [] →
      (!(t == "") && !(t == "none")) = true →
      ∃ r rNo : GenOk,
        (generate_conversation_audio g (fun a b => .completed (clips a b)) genBg
          conversation true (some t) none).result = .ok r ∧
        (generate_conversation_audio g (fun a b => .completed (clips a b)) genBg
          conversation false (some t) none).result = .ok rNo ∧
        r.combined_audio = overlay rNo.combined_audio
          (applyGainDb
            (generate_background_audio genBg rNo.combined_audio.length t)
            background_gain_db)) := by
  refine ⟨rfl, rfl, ?_⟩
  intro g cfg clips genBg conversation t hcfg hN ht
  obtain ⟨st', hrun, hind, hcalls, hfv, hiff⟩ :=
    runLines_spec cfg clips g.temp_dir conversation 0 ⟨[], [], [], []⟩ (by simp)
  have hne : st'.segments.isEmpty = false := by
    simpa [List.isEmpty_iff] using (fun h => hN (hiff.mp h).2 : st'.segments ≠ [])
  have hgen1 := generate_run g cfg hcfg (fun a b => .completed (clips a b)) genBg
    conversation true (some t) none st' hrun hne
  have hgen2 := generate_run g cfg hcfg (fun a b => .completed (clips a b)) genBg
    conversation false (some t) none st' hrun hne
  have hbg2 : apply_background genBg g.temp_dir false (some t) none
      (st'.segments.foldl (· ++ ·) []) st'.files =
      (st'.segments.foldl (· ++ ·) [], st'.files) := by
    rw [apply_background.eq_def]
    simp
  have hbg1 : (apply_background genBg g.temp_dir true (some t) none
      (st'.segments.foldl (· ++ ·) []) st'.files).1 =
      overlay (st'.segments.foldl (· ++ ·) [])
        (applyGainDb
          (generate_background_audio genBg
            (st'.segments.foldl (· ++ ·) []).length t)
          background_gain_db) := by
    rw [apply_background.eq_def]
    simp [ht]
  refine ⟨_, _, by rw [hgen1], by rw [hgen2], ?_⟩
  show (apply_background genBg g.temp_dir true (some t) none
      (st'.segments.foldl (· ++ ·) []) st'.files).1 = _
  rw [hbg1, hbg2]

/-- Concrete instance of C10: the unexpected keyword is reported and, for a
one-line conversation with a generated cafe background, the combined clip is
the plain combined clip overlaid with the -20 dB attenuated background. -/
theorem claim_c10_background_volume_mismatch_witness :
    (AudioGenerator.init "t" (some "k") (some "r")).speech_config =
        some ⟨"en-US-AriaNeural"⟩ ∧
    nonEmptyLines [⟨some "A", some "Hello"⟩] ≠ [] ∧
    (!(("cafe" : String) == "") && !(("cafe" : String) == "none")) = true ∧
    ∃ r rNo : GenOk,
      (generate_conversation_audio (AudioGenerator.init "t" (some "k") (some "r"))
        (fun a b => .completed ((fun _ _ => ([1, 2] : AudioSegment)) a b))
        (fun d _ => some (silent d))
        [⟨some "A", some "Hello"⟩] true (some "cafe") none).result = .ok r ∧
      (generate_conversation_audio (AudioGenerator.init "t" (some "k") (some "r"))
        (fun a b => .completed ((fun _ _ => ([1, 2] : AudioSegment)) a b))
        (fun d _ => some (silent d))
        [⟨some "A", some "Hello"⟩] false (some "cafe") none).result = .ok rNo ∧
      r.combined_audio = overlay rNo.combined_audio
        (applyGainDb
          (generate_background_audio (fun d _ => some (silent d))
            rNo.combined_audio.length "cafe")
          background_gain_db) :=
  ⟨by decide, by decide, by decide,
    claim_c10_background_volume_mismatch.2.2
      (AudioGenerator.init "t" (some "k") (some "r")) ⟨"en-US-AriaNeural"⟩
      (fun _ _ => [1, 2]) (fun d _ => some (silent d)) [⟨some "A", some "Hello"⟩]
      "cafe" (by decide) (by decide) (by decide)⟩

end ListeningScript
